import Mathlib

/-!
Verification of the backend-node abstraction in pkg/sql/db.go of dbpack.

The Go code is shallowly embedded: every operation of the DB type becomes a
Lean function over explicit state (the in-flight counter, the pool available
count, the health-state pair) together with an oracle describing the outcome
of each external call (pool acquisition, backend execution, filter verdicts).
Errors are values of an opaque type; a Go nil error is modelled as none.
Machine int64 counters are modelled as Int: along every run considered here
their magnitudes stay far below 2^63, so overflow never occurs and no
explicit wrap-around is needed.
-/

namespace DBPack

/-- Opaque error payload (Go error values are only tested against nil). -/
abbrev Err := Nat

/-- Opaque proto.Result payload. -/
abbrev Result := Nat

/-- Opaque proto.Field payload (a column definition). -/
abbrev Field := Nat

/-- Opaque backend connection identity. -/
abbrev Conn := Nat

/-- Outcome of a Go function call that may also panic at runtime. -/
inductive GoOutcome (α : Type) where
  | ok (a : α)
  | err (e : Err)
  | panicked
deriving DecidableEq, Repr

/-!
## Health monitor (_ping and its deferred hysteresis update)

proto.DBStatus (declared outside src/) is a binary status: the status field
only ever holds proto.Running or its bit-toggle (the Go code flips with
status = complement status AND 1). The two values are modelled as Bool with
true = proto.Running (Healthy).
-/

/-- Projection of the DB state touched by the deferred block of _ping:
the binary status and the pingCount (confidence) int64 counter. -/
structure HealthState where
  status : Bool
  pingCount : Int
deriving DecidableEq, Repr

/-- Step applied to pingCount by the deferred block of _ping:
if status == proto.Running then Inc on error else Dec, and symmetrically
when the status is not Running. `failed` is `err != nil`. -/
def pingDelta (status : Bool) (failed : Bool) : Int :=
  if status then (if failed then 1 else -1)
  else (if failed then -1 else 1)

/-- The deferred block of _ping (db.go lines 172-193): update pingCount by
pingDelta, then if the updated count is divisible by pingTimesForChangeStatus
swap the counter to 0 and, if the count was positive, toggle the status.
Go truncated remainder and Lean emod agree on the `== 0` test, which is the
only use made of the remainder. -/
def hysteresisStep (T : Nat) (st : HealthState) (failed : Bool) : HealthState :=
  let c := st.pingCount + pingDelta st.status failed
  if c % (T : Int) = 0 then
    { status := if 0 < c then !st.status else st.status, pingCount := 0 }
  else
    { status := st.status, pingCount := c }

/-- The whole body of _ping for one timer tick: pool.Get, then (when Get
succeeded) conn.Ping; the deferred hysteresis block always runs, seeing the
error of whichever call failed first. Returns the updated health state and
the error value _ping returns to its caller. -/
def pingOnce (T : Nat) (st : HealthState) (getErr pingErr : Option Err) :
    HealthState × Option Err :=
  let err : Option Err :=
    match getErr with
    | some e => some e
    | none => pingErr
  (hysteresisStep T st err.isSome, err)

/-- The periodic check of ping() feeding a finite sequence of ping outcomes
through the hysteresis, `true` meaning the ping at that tick failed. -/
def runPings (T : Nat) (st : HealthState) (failures : List Bool) : HealthState :=
  failures.foldl (hysteresisStep T) st

/-!
## Close (db.go lines 204-208)

The literal loop: for inflightRequests.Load() == 0 { pool.Close() }.
The loop body never changes the in-flight counter, so it is held constant.
-/

/-- Run of the Close loop bounded by fuel counting evaluations of the loop
condition. Returns (terminated, number of pool.Close invocations so far);
(false, n) means the loop is still running after n full iterations. -/
def closeRun (inflight : Int) : Nat → Bool × Nat
  | 0 => (false, 0)
  | n + 1 =>
    if inflight = 0 then
      let r := closeRun inflight n
      (r.1, r.2 + 1)
    else (true, 0)

/-!
## Node record, construction and weight setters
-/

/-- The DB struct fields relevant to construction and role metadata; the
pool, the filter lists and the atomic counters are threaded explicitly
through the operation models below. -/
structure DB where
  name : String
  status : Bool
  pingInterval : Nat
  pingTimesForChangeStatus : Nat
  isMaster : Bool
  masterName : String
  writeWeight : Int
  readWeight : Int
deriving DecidableEq, Repr

/-- NewDB (db.go lines 55-75): status starts Running, isMaster is
masterName == "", both weights take the Go zero value 0. -/
def NewDB (name masterName : String) (pingInterval T : Nat) : DB :=
  { name := name
    status := true
    pingInterval := pingInterval
    pingTimesForChangeStatus := T
    isMaster := masterName == ""
    masterName := masterName
    writeWeight := 0
    readWeight := 0 }

/-- SetWriteWeight (db.go lines 233-237): assigns only when isMaster. -/
def SetWriteWeight (db : DB) (weight : Int) : DB :=
  if db.isMaster then { db with writeWeight := weight } else db

/-- SetReadWeight (db.go lines 239-241): unconditional assignment. -/
def SetReadWeight (db : DB) (weight : Int) : DB :=
  { db with readWeight := weight }

/-!
## Filter chains

A filter object is represented by the verdict its handle method returns on
this call: none for nil, some e for an error e.
-/

/-- doConnectionPreFilter (db.go lines 505-514): run the pre filters in
registration order, stopping at the first error. Instrumented with the
number of PreHandle invocations performed, for the short-circuit claims. -/
def doConnectionPreFilter : List (Option Err) → Nat × Option Err
  | [] => (0, none)
  | f :: rest =>
    match f with
    | some e => (1, some e)
    | none =>
      let r := doConnectionPreFilter rest
      (r.1 + 1, r.2)

/-- doConnectionPostFilter (db.go lines 516-525): same loop shape over the
post filters, instrumented with the number of PostHandle invocations. -/
def doConnectionPostFilter : List (Option Err) → Nat × Option Err
  | [] => (0, none)
  | f :: rest =>
    match f with
    | some e => (1, some e)
    | none =>
      let r := doConnectionPostFilter rest
      (r.1 + 1, r.2)

/-!
## Query / execute operations

Each operation increments inflightRequests on entry and decrements it in a
deferred call that runs on every exit path, panic unwinding included. The
models make that literal: the during value is the counter between Inc and
the deferred Dec, the after value is the counter once the deferred Dec ran.
-/

/-- Outcome of one backend execution call (ExecuteWithWarningCount or
PrepareQueryArgs): the result, the warning count and the error value. -/
structure ExecOutcome where
  result : Result
  warn : Nat
  err : Option Err
deriving DecidableEq, Repr

/-- Instrumentation: how many pre filters, backend calls and post filters
actually ran during one operation. -/
structure QueryLog where
  presRun : Nat
  backendCalls : Nat
  postsRun : Nat
deriving DecidableEq, Repr

/-- Result of running one operation model: the returned value, the
instrumentation log, and the in-flight counter during and after the call. -/
structure OpRun (ρ : Type) where
  ret : ρ
  log : QueryLog
  during : Int
  after : Int
deriving DecidableEq, Repr

/-- UseDB (db.go lines 251-268): Inc, pool.Get, WriteComInitDB, deferred
Put and Dec. The errors.WithStack wrap keeps the error value. -/
def UseDB (inflight : Int) (getErr writeErr : Option Err) : OpRun (Option Err) :=
  let d := inflight + 1
  let body : Option Err × QueryLog :=
    match getErr with
    | some e => (some e, ⟨0, 0, 0⟩)
    | none => (writeErr, ⟨0, 1, 0⟩)
  ⟨body.1, body.2, d, d - 1⟩

/-- Go bounds-checked slice element assignment: writing index i of a slice
of the given elements panics (none) unless i is below the slice length. -/
def sliceSet (xs : List Field) (i : Nat) (a : Field) : Option (List Field) :=
  if i < xs.length then some (xs.set i a) else none

/-- The copy loop of ExecuteFieldList (db.go lines 295-298): result is made
with length 0 and capacity len(fields), then the loop assigns result[i]. -/
def fieldLoop : List Field → Nat → List Field → Option (List Field)
  | [], _, acc => some acc
  | f :: rest, i, acc =>
    match sliceSet acc i f with
    | none => none
    | some acc2 => fieldLoop rest (i + 1) acc2

/-- ExecuteFieldList (db.go lines 270-300): Inc, pool.Get,
WriteComFieldList, ReadColumnDefinitions, then the copy loop into a slice
made with length 0; deferred Put and Dec run also when the loop panics. -/
def ExecuteFieldList (inflight : Int) (getErr writeErr : Option Err)
    (readCols : Except Err (List Field)) : OpRun (GoOutcome (List Field)) :=
  let d := inflight + 1
  let body : GoOutcome (List Field) × QueryLog :=
    match getErr with
    | some e => (.err e, ⟨0, 0, 0⟩)
    | none =>
      match writeErr with
      | some e => (.err e, ⟨0, 1, 0⟩)
      | none =>
        match readCols with
        | .error e => (.err e, ⟨0, 1, 0⟩)
        | .ok fields =>
          match fieldLoop fields 0 [] with
          | none => (.panicked, ⟨0, 1, 0⟩)
          | some result => (.ok result, ⟨0, 1, 0⟩)
  ⟨body.1, body.2, d, d - 1⟩

/-- Query (db.go lines 302-331): Inc, pool.Get, pre filters, one
ExecuteWithWarningCount call, post filters; on backend error the partial
result and warning count are returned with the error; on a post-filter
error nil, 0 and the filter error are returned. -/
def Query (inflight : Int) (pres posts : List (Option Err))
    (getErr : Option Err) (exec : ExecOutcome) :
    OpRun (Option Result × Nat × Option Err) :=
  let d := inflight + 1
  let body : (Option Result × Nat × Option Err) × QueryLog :=
    match getErr with
    | some e => ((none, 0, some e), ⟨0, 0, 0⟩)
    | none =>
      let pre := doConnectionPreFilter pres
      match pre.2 with
      | some e => ((none, 0, some e), ⟨pre.1, 0, 0⟩)
      | none =>
        match exec.err with
        | some e => ((some exec.result, exec.warn, some e), ⟨pre.1, 1, 0⟩)
        | none =>
          let post := doConnectionPostFilter posts
          match post.2 with
          | some e => ((none, 0, some e), ⟨pre.1, 1, post.1⟩)
          | none => ((some exec.result, exec.warn, none), ⟨pre.1, 1, post.1⟩)
  ⟨body.1, body.2, d, d - 1⟩

/-- QueryDirectly (db.go lines 333-348): like Query but with a background
context and no filter chain. -/
def QueryDirectly (inflight : Int) (getErr : Option Err) (exec : ExecOutcome) :
    OpRun (Option Result × Nat × Option Err) :=
  let d := inflight + 1
  let body : (Option Result × Nat × Option Err) × QueryLog :=
    match getErr with
    | some e => ((none, 0, some e), ⟨0, 0, 0⟩)
    | none => ((some exec.result, exec.warn, exec.err), ⟨0, 1, 0⟩)
  ⟨body.1, body.2, d, d - 1⟩

/-- ExecuteStmt (db.go lines 350-390): same control flow as Query with the
backend call being PrepareQueryArgs on the positional v1..vN arguments; the
argument list only feeds the backend oracle and is left implicit in it. -/
def ExecuteStmt (inflight : Int) (pres posts : List (Option Err))
    (getErr : Option Err) (exec : ExecOutcome) :
    OpRun (Option Result × Nat × Option Err) :=
  let d := inflight + 1
  let body : (Option Result × Nat × Option Err) × QueryLog :=
    match getErr with
    | some e => ((none, 0, some e), ⟨0, 0, 0⟩)
    | none =>
      let pre := doConnectionPreFilter pres
      match pre.2 with
      | some e => ((none, 0, some e), ⟨pre.1, 0, 0⟩)
      | none =>
        match exec.err with
        | some e => ((some exec.result, exec.warn, some e), ⟨pre.1, 1, 0⟩)
        | none =>
          let post := doConnectionPostFilter posts
          match post.2 with
          | some e => ((none, 0, some e), ⟨pre.1, 1, post.1⟩)
          | none => ((some exec.result, exec.warn, none), ⟨pre.1, 1, post.1⟩)
  ⟨body.1, body.2, d, d - 1⟩

/-- ExecuteSql (db.go lines 392-419): same control flow as Query with
PrepareQueryArgs on the ad hoc sql and args. -/
def ExecuteSql (inflight : Int) (pres posts : List (Option Err))
    (getErr : Option Err) (exec : ExecOutcome) :
    OpRun (Option Result × Nat × Option Err) :=
  let d := inflight + 1
  let body : (Option Result × Nat × Option Err) × QueryLog :=
    match getErr with
    | some e => ((none, 0, some e), ⟨0, 0, 0⟩)
    | none =>
      let pre := doConnectionPreFilter pres
      match pre.2 with
      | some e => ((none, 0, some e), ⟨pre.1, 0, 0⟩)
      | none =>
        match exec.err with
        | some e => ((some exec.result, exec.warn, some e), ⟨pre.1, 1, 0⟩)
        | none =>
          let post := doConnectionPostFilter posts
          match post.2 with
          | some e => ((none, 0, some e), ⟨pre.1, 1, post.1⟩)
          | none => ((some exec.result, exec.warn, none), ⟨pre.1, 1, post.1⟩)
  ⟨body.1, body.2, d, d - 1⟩

/-- ExecuteSqlDirectly (db.go lines 421-435): background context, no
filter chain, one PrepareQueryArgs call. -/
def ExecuteSqlDirectly (inflight : Int) (getErr : Option Err)
    (exec : ExecOutcome) : OpRun (Option Result × Nat × Option Err) :=
  let d := inflight + 1
  let body : (Option Result × Nat × Option Err) × QueryLog :=
    match getErr with
    | some e => ((none, 0, some e), ⟨0, 0, 0⟩)
    | none => ((some exec.result, exec.warn, exec.err), ⟨0, 1, 0⟩)
  ⟨body.1, body.2, d, d - 1⟩

/-!
## Transaction start

The pool is summarised by its Available count: pool.Get on success claims a
connection (available drops by one), pool.Put returns one (available rises
by one). Begin and XAStart never touch inflightRequests, so the counter is
threaded through unchanged on purpose.
-/

/-- The Tx struct constructed by Begin and XAStart: the single-use closed
flag and the claimed connection (the non-owning db back reference is
omitted). -/
structure TxHandle where
  closed : Bool
  conn : Conn
deriving DecidableEq, Repr

/-- Begin (db.go lines 437-465): pool.Get; on start-statement failure
pool.Put then return the error; on success return a Tx holding the
connection, without releasing it. Returns (tx, result, error), the pool
available count and the in-flight counter. -/
def Begin (avail inflight : Int) (c : Conn) (getErr execErr : Option Err)
    (execResult : Result) :
    (Option TxHandle × Option Result × Option Err) × Int × Int :=
  match getErr with
  | some e => ((none, none, some e), avail, inflight)
  | none =>
    let availClaimed := avail - 1
    match execErr with
    | some e => ((none, none, some e), availClaimed + 1, inflight)
    | none => ((some ⟨false, c⟩, some execResult, none), availClaimed, inflight)

/-- XAStart (db.go lines 467-495): identical control flow to Begin with the
caller-supplied XA start statement. -/
def XAStart (avail inflight : Int) (c : Conn) (sql : String)
    (getErr execErr : Option Err) (execResult : Result) :
    (Option TxHandle × Option Result × Option Err) × Int × Int :=
  match getErr with
  | some e => ((none, none, some e), avail, inflight)
  | none =>
    let availClaimed := avail - 1
    match execErr with
    | some e => ((none, none, some e), availClaimed + 1, inflight)
    | none => ((some ⟨false, c⟩, some execResult, none), availClaimed, inflight)

/-- Modelled from the spec: the close (commit or rollback) of a transaction
handle, whose code is not under src/. Per sections 3 and 4.6 of the spec it
is guarded by the single-use closed flag and releases the held connection
back to the pool exactly once. -/
def txClose (tx : TxHandle) (avail : Int) : TxHandle × Int :=
  if tx.closed then (tx, avail) else ({ tx with closed := true }, avail + 1)

/-!
## Helper lemmas
-/

/-- Unfolding equation for the hysteresis step, with the let bound count
written out. -/
theorem hysteresisStep_eq (T : Nat) (st : HealthState) (failed : Bool) :
    hysteresisStep T st failed =
      if (st.pingCount + pingDelta st.status failed) % (T : Int) = 0 then
        { status :=
            if 0 < st.pingCount + pingDelta st.status failed then !st.status
            else st.status,
          pingCount := 0 }
      else
        { status := st.status,
          pingCount := st.pingCount + pingDelta st.status failed } := rfl

/-- The pre-filter loop on i clean filters followed by a failing one stops
at the failing filter, after i + 1 invocations. -/
theorem doConnectionPreFilter_firstErr (i : Nat) (e : Err)
    (rest : List (Option Err)) :
    doConnectionPreFilter (List.replicate i none ++ some e :: rest) =
      (i + 1, some e) := by
  induction i with
  | zero => simp [doConnectionPreFilter]
  | succ k ih => simp [doConnectionPreFilter, List.replicate_succ, ih]

/-- The pre-filter loop on n clean filters runs all of them and reports no
error. -/
theorem doConnectionPreFilter_allNone (n : Nat) :
    doConnectionPreFilter (List.replicate n none) = (n, none) := by
  induction n with
  | zero => simp [doConnectionPreFilter]
  | succ k ih => simp [doConnectionPreFilter, List.replicate_succ, ih]

/-- The post-filter loop on i clean filters followed by a failing one stops
at the failing filter, after i + 1 invocations. -/
theorem doConnectionPostFilter_firstErr (i : Nat) (e : Err)
    (rest : List (Option Err)) :
    doConnectionPostFilter (List.replicate i none ++ some e :: rest) =
      (i + 1, some e) := by
  induction i with
  | zero => simp [doConnectionPostFilter]
  | succ k ih => simp [doConnectionPostFilter, List.replicate_succ, ih]

/-!
## Claim theorems
-/

/-- C1: for every flip threshold T = t + 1 >= 1 and every health state and
ping outcome, the deferred hysteresis of _ping flips the status exactly
when the updated confidence count is a positive multiple of T, resets the
count to zero exactly when the count is a multiple of T (positive or
negative), and the status either stays or is toggled; moreover the
concrete T = 2 runs of the specification hold: two failures from Healthy
flip to Unhealthy with count 0, two successes from Unhealthy flip back to
Healthy, and failure then success from Healthy returns the count to 0 with
no flip. -/
theorem hysteresis_flip_characterisation :
    (∀ (t : Nat) (st : HealthState) (failed : Bool),
      ((hysteresisStep (t + 1) st failed).status ≠ st.status ↔
        (0 < st.pingCount + pingDelta st.status failed ∧
          ((t + 1 : Nat) : Int) ∣ (st.pingCount + pingDelta st.status failed))) ∧
      ((hysteresisStep (t + 1) st failed).pingCount = 0 ↔
        ((t + 1 : Nat) : Int) ∣ (st.pingCount + pingDelta st.status failed)) ∧
      ((hysteresisStep (t + 1) st failed).status = st.status ∨
        (hysteresisStep (t + 1) st failed).status = !st.status)) ∧
    runPings 2 ⟨true, 0⟩ [true, true] = ⟨false, 0⟩ ∧
    runPings 2 ⟨false, 0⟩ [false, false] = ⟨true, 0⟩ ∧
    runPings 2 ⟨true, 0⟩ [true] = ⟨true, 1⟩ ∧
    runPings 2 ⟨true, 0⟩ [true, false] = ⟨true, 0⟩ := by
  refine ⟨?_, by decide, by decide, by decide, by decide⟩
  intro t st failed
  rw [hysteresisStep_eq]
  by_cases h :
      (st.pingCount + pingDelta st.status failed) % ((t + 1 : Nat) : Int) = 0
  · rw [if_pos h]
    have hd : ((t + 1 : Nat) : Int) ∣ (st.pingCount + pingDelta st.status failed) :=
      Int.dvd_of_emod_eq_zero h
    by_cases hpos : 0 < st.pingCount + pingDelta st.status failed
    · rw [if_pos hpos]
      refine ⟨⟨fun _ => ⟨hpos, hd⟩, fun _ => ?_⟩, ⟨fun _ => hd, fun _ => rfl⟩,
        Or.inr rfl⟩
      show (!st.status) ≠ st.status
      cases st.status <;> decide
    · rw [if_neg hpos]
      exact ⟨⟨fun hne => absurd rfl hne, fun hp => absurd hp.1 hpos⟩,
        ⟨fun _ => hd, fun _ => rfl⟩, Or.inl rfl⟩
  · rw [if_neg h]
    refine ⟨⟨fun hne => absurd rfl hne,
      fun hp => absurd (Int.emod_eq_zero_of_dvd hp.2) h⟩,
      ⟨fun h0 => ?_, fun hdd => absurd (Int.emod_eq_zero_of_dvd hdd) h⟩,
      Or.inl rfl⟩
    have h0c : st.pingCount + pingDelta st.status failed = 0 := h0
    rw [h0c]
    exact dvd_zero _

/-- C2: the literal loop of Close is defective: with the in-flight count
zero it never terminates and keeps invoking pool.Close, n invocations
after n iterations (so more than once), and with the count nonzero (here
one in-flight request) it returns at once, neither waiting for the drain
nor ever closing the pool. -/
theorem Close_loop_defective :
    (∀ n : Nat, closeRun 0 n = (false, n)) ∧ closeRun 1 1 = (true, 0) := by
  refine ⟨?_, by decide⟩
  intro n
  induction n with
  | zero => rfl
  | succ k ih => simp [closeRun, ih]

/-- C3: when pool acquisition, the field-list request and the column read
all succeed, ExecuteFieldList panics with an index-out-of-range on every
non-empty column list, because the result slice is made with length zero
and then written by index; only the empty column list is returned intact. -/
theorem ExecuteFieldList_index_out_of_range :
    ∀ (inflight : Int) (f : Field) (rest : List Field),
      (ExecuteFieldList inflight none none (.ok (f :: rest))).ret = .panicked ∧
      (ExecuteFieldList inflight none none (.ok [])).ret = .ok [] := by
  intro inflight f rest
  exact ⟨rfl, rfl⟩

/-- C4: Begin and XAStart put the claimed connection back into the pool
when the start statement fails, restoring the available count and
constructing no handle, and on success keep the connection claimed inside
the returned handle, leaving availability one lower until the handle close
releases it. -/
theorem Begin_XAStart_release_on_failure :
    ∀ (avail inflight : Int) (c : Conn) (sql : String) (e : Err) (res : Result),
      Begin avail inflight c none (some e) res =
        ((none, none, some e), avail, inflight) ∧
      Begin avail inflight c none none res =
        ((some ⟨false, c⟩, some res, none), avail - 1, inflight) ∧
      XAStart avail inflight c sql none (some e) res =
        ((none, none, some e), avail, inflight) ∧
      XAStart avail inflight c sql none none res =
        ((some ⟨false, c⟩, some res, none), avail - 1, inflight) ∧
      txClose ⟨false, c⟩ (avail - 1) = (⟨true, c⟩, avail) := by
  intro avail inflight c sql e res
  refine ⟨?_, rfl, ?_, rfl, ?_⟩ <;> simp [Begin, XAStart, txClose]

/-- C5: with the first pre-filter error at position i, Query, ExecuteStmt
and ExecuteSql abort with that error after running exactly the first i + 1
pre filters, skip every later pre filter, never invoke the backend and run
no post filter. -/
theorem preFilter_short_circuit :
    ∀ (inflight : Int) (i : Nat) (e : Err) (rest posts : List (Option Err))
      (exec : ExecOutcome),
      Query inflight (List.replicate i none ++ some e :: rest) posts none exec =
        ⟨(none, 0, some e), ⟨i + 1, 0, 0⟩, inflight + 1, inflight⟩ ∧
      ExecuteStmt inflight (List.replicate i none ++ some e :: rest) posts none exec =
        ⟨(none, 0, some e), ⟨i + 1, 0, 0⟩, inflight + 1, inflight⟩ ∧
      ExecuteSql inflight (List.replicate i none ++ some e :: rest) posts none exec =
        ⟨(none, 0, some e), ⟨i + 1, 0, 0⟩, inflight + 1, inflight⟩ := by
  intro inflight i e rest posts exec
  refine ⟨?_, ?_, ?_⟩ <;>
    simp [Query, ExecuteStmt, ExecuteSql, doConnectionPreFilter_firstErr]

/-- C6: with all pre filters clean, a successful backend execution and the
first post-filter error at position i, Query, ExecuteStmt and ExecuteSql
show exactly one backend invocation, run exactly the first i + 1 post
filters, skip the rest, and return the filter error with no result. -/
theorem postFilter_short_circuit :
    ∀ (inflight : Int) (n i : Nat) (e : Err) (rest : List (Option Err))
      (res : Result) (warn : Nat),
      Query inflight (List.replicate n none)
          (List.replicate i none ++ some e :: rest) none ⟨res, warn, none⟩ =
        ⟨(none, 0, some e), ⟨n, 1, i + 1⟩, inflight + 1, inflight⟩ ∧
      ExecuteStmt inflight (List.replicate n none)
          (List.replicate i none ++ some e :: rest) none ⟨res, warn, none⟩ =
        ⟨(none, 0, some e), ⟨n, 1, i + 1⟩, inflight + 1, inflight⟩ ∧
      ExecuteSql inflight (List.replicate n none)
          (List.replicate i none ++ some e :: rest) none ⟨res, warn, none⟩ =
        ⟨(none, 0, some e), ⟨n, 1, i + 1⟩, inflight + 1, inflight⟩ := by
  intro inflight n i e rest res warn
  refine ⟨?_, ?_, ?_⟩ <;>
    simp [Query, ExecuteStmt, ExecuteSql, doConnectionPreFilter_allNone,
      doConnectionPostFilter_firstErr]

/-- C7: every query/execute operation holds the in-flight counter at one
above its pre-call value between the increment and the deferred decrement,
and the deferred decrement restores the pre-call value on every outcome
path, acquisition failure, filter rejection, backend failure and the
field-list panic included. -/
theorem inflight_restored :
    ∀ (inflight : Int) (getErr writeErr : Option Err)
      (pres posts : List (Option Err)) (exec : ExecOutcome)
      (readCols : Except Err (List Field)),
      ((UseDB inflight getErr writeErr).during = inflight + 1 ∧
        inflight < (UseDB inflight getErr writeErr).during ∧
        (UseDB inflight getErr writeErr).after = inflight) ∧
      ((ExecuteFieldList inflight getErr writeErr readCols).during = inflight + 1 ∧
        inflight < (ExecuteFieldList inflight getErr writeErr readCols).during ∧
        (ExecuteFieldList inflight getErr writeErr readCols).after = inflight) ∧
      ((Query inflight pres posts getErr exec).during = inflight + 1 ∧
        inflight < (Query inflight pres posts getErr exec).during ∧
        (Query inflight pres posts getErr exec).after = inflight) ∧
      ((QueryDirectly inflight getErr exec).during = inflight + 1 ∧
        inflight < (QueryDirectly inflight getErr exec).during ∧
        (QueryDirectly inflight getErr exec).after = inflight) ∧
      ((ExecuteStmt inflight pres posts getErr exec).during = inflight + 1 ∧
        inflight < (ExecuteStmt inflight pres posts getErr exec).during ∧
        (ExecuteStmt inflight pres posts getErr exec).after = inflight) ∧
      ((ExecuteSql inflight pres posts getErr exec).during = inflight + 1 ∧
        inflight < (ExecuteSql inflight pres posts getErr exec).during ∧
        (ExecuteSql inflight pres posts getErr exec).after = inflight) ∧
      ((ExecuteSqlDirectly inflight getErr exec).during = inflight + 1 ∧
        inflight < (ExecuteSqlDirectly inflight getErr exec).during ∧
        (ExecuteSqlDirectly inflight getErr exec).after = inflight) := by
  intro inflight getErr writeErr pres posts exec readCols
  refine ⟨⟨rfl, ?_, ?_⟩, ⟨rfl, ?_, ?_⟩, ⟨rfl, ?_, ?_⟩, ⟨rfl, ?_, ?_⟩,
    ⟨rfl, ?_, ?_⟩, ⟨rfl, ?_, ?_⟩, ⟨rfl, ?_, ?_⟩⟩ <;>
  first
  | (show inflight < inflight + 1; omega)
  | (show inflight + 1 - 1 = inflight; omega)

/-- C8: SetWriteWeight is the identity on every node whose isMaster flag is
false (in particular any node built by NewDB from a non-empty master name,
since isMaster is masterName == "") and returns nothing but the node, and
it never changes readWeight. -/
theorem SetWriteWeight_guarded :
    ∀ (db : DB) (w : Int) (name m : String) (pingInterval T : Nat),
      SetWriteWeight { db with isMaster := false } w =
        { db with isMaster := false } ∧
      (NewDB name m pingInterval T).isMaster = (m == "") ∧
      (SetWriteWeight db w).readWeight = db.readWeight := by
  intro db w name m pingInterval T
  refine ⟨by simp [SetWriteWeight], rfl, ?_⟩
  unfold SetWriteWeight
  split <;> rfl

/-- C9: Begin and XAStart leave the in-flight counter unchanged on every
path, while a successful start still leaves one connection claimed out of
the pool inside the handle; draining the counter therefore does not wait
for connections held by open transaction handles. -/
theorem Begin_XAStart_inflight_frame :
    ∀ (avail inflight : Int) (c : Conn) (sql : String)
      (getErr execErr : Option Err) (res : Result),
      (Begin avail inflight c getErr execErr res).2.2 = inflight ∧
      (XAStart avail inflight c sql getErr execErr res).2.2 = inflight ∧
      (Begin avail inflight c none none res).2 = (avail - 1, inflight) ∧
      (XAStart avail inflight c sql none none res).2 = (avail - 1, inflight) := by
  intro avail inflight c sql getErr execErr res
  refine ⟨?_, ?_, rfl, rfl⟩ <;> cases getErr <;> cases execErr <;> rfl

/-- C10: a pool-acquisition failure inside _ping is folded into the
hysteresis exactly like a failed ping: the deferred update runs with a
nonnil error before any ping was issued, and the resulting health state
equals the one of a failed ping. -/
theorem acquisition_failure_counts_as_failed_ping :
    ∀ (T : Nat) (st : HealthState) (e e2 : Err) (p : Option Err),
      (pingOnce T st (some e) p).1 = hysteresisStep T st true ∧
      (pingOnce T st none (some e2)).1 = hysteresisStep T st true ∧
      (pingOnce T st (some e) p).1 = (pingOnce T st none (some e2)).1 := by
  intro T st e e2 p
  exact ⟨rfl, rfl, rfl⟩

end DBPack
